import Mathlib

/-!
Verification development for the git-ops library (Rust sources under `src/`).

The development shallowly embeds the two operations of the library, `GitPuller::pull`
(src/pull.rs) and `GitCheckout::checkout_branch` (src/checkout.rs), together with the
two credential callbacks (`SshConfig::credentials_callback` in src/git/ssh.rs and
`GitPuller::https_credentials_callback` in src/pull.rs).

The git2 backend that the library calls into is modelled as follows:
- the reference store of a repository is an association list from fully-qualified
  reference names to commit object ids (`Nat`);
- HEAD is either symbolic (attached to a reference name) or detached at a commit;
- the working tree is summarised by the id of the commit it materialises;
- commit ancestry is an oracle `isAnc : Nat → Nat → Bool` (`isAnc a b` meaning
  commit `a` is contained in / an ancestor of commit `b`), from which
  `git_merge_analysis` is computed exactly as libgit2 does: up-to-date when the
  fetched commit is already contained in HEAD, fast-forward when HEAD is contained
  in the fetched commit, otherwise a normal (diverged) merge;
- filesystem existence checks, the SSH agent, key validation, the credential
  helper, environment variables and default credentials are oracles passed as
  function arguments, since they are ambient effects of the process.
-/

/-- First-match lookup in an association list keyed by strings.  Models
`git_reference_lookup` over the reference store (and config key lookup). -/
def lookupA {α : Type} : List (String × α) → String → Option α
  | [], _ => none
  | (k, v) :: rest, n => if k = n then some v else lookupA rest n

/-- In-place update of an association list: replaces the binding of the key if
present (keeping its position), otherwise appends a new binding at the end.
Models writing a reference (`git_reference_set_target` / branch creation). -/
def setA {α : Type} : List (String × α) → String → α → List (String × α)
  | [], n, v => [(n, v)]
  | (k, w) :: rest, n, v => if k = n then (k, v) :: rest else (k, w) :: setA rest n v

/-- HEAD of a repository: attached to a named reference, or detached at a commit. -/
inductive HeadState
  | symbolic (refname : String)
  | detached (oid : Nat)
deriving DecidableEq

/-- The portion of a git repository's on-disk state that `pull` and
`checkout_branch` read or write: the reference store, HEAD, the commit the
working tree materialises, and whether a remote named `origin` is configured. -/
structure Repo where
  refs : List (String × Nat)
  head : HeadState
  workdir : Nat
  hasOrigin : Bool
deriving DecidableEq

/-- Strip a leading pattern from a character list: `some rest` when the list
begins with the pattern, `none` otherwise.  Models libgit2's `git__prefixcmp`
followed by the pointer offset used by `git_reference__shorthand`. -/
def stripLead : List Char → List Char → Option (List Char)
  | [], s => some s
  | _ :: _, [] => none
  | a :: as, b :: bs => if a = b then stripLead as bs else none

/-- Models libgit2 `git_reference_shorthand`: strips the first matching prefix
among `refs/heads/`, `refs/tags/`, `refs/remotes/`, `refs/`; a name matching no
prefix (such as the `HEAD` pseudo-reference of a detached checkout) is returned
unchanged. -/
def shorthand (name : String) : String :=
  match stripLead "refs/heads/".data name.data with
  | some rest => String.mk rest
  | none =>
    match stripLead "refs/tags/".data name.data with
    | some rest => String.mk rest
    | none =>
      match stripLead "refs/remotes/".data name.data with
      | some rest => String.mk rest
      | none =>
        match stripLead "refs/".data name.data with
        | some rest => String.mk rest
        | none => name

/-- Models `Repository::head()` (libgit2 `git_repository_head`): when HEAD is
symbolic it resolves one level and returns the reference it points to, failing
(`EUNBORNBRANCH`) when that reference does not exist; when HEAD is detached it
returns a direct reference whose name is the string `HEAD`.  The result is the
name of the returned reference. -/
def repoHeadRef (repo : Repo) : Except Unit String :=
  match repo.head with
  | HeadState.symbolic r =>
    match lookupA repo.refs r with
    | some _ => Except.ok r
    | none => Except.error ()
  | HeadState.detached _ => Except.ok "HEAD"

/-- Models `Reference::shorthand()` on the reference returned by `head()`: it is
`none` only when the reference name is not valid UTF-8, which a Lean `String`
cannot represent, so the model always returns `some (shorthand name)`. -/
def shorthandOpt (name : String) : Option String :=
  some (shorthand name)

/-- The commit id HEAD currently resolves to (used by `git_merge_analysis`,
which analyses the fetched commit against HEAD). -/
def headOid (repo : Repo) : Option Nat :=
  match repo.head with
  | HeadState.symbolic r => lookupA repo.refs r
  | HeadState.detached oid => some oid

/-- Models the fetch step: `remote.fetch(&[], ...)` fetches all refspecs
configured for `origin`, which updates the remote-tracking reference
`refs/remotes/origin/<b>` to the remote's tip for every remote branch `b`.
`remoteBranches` is the remote's branch list at fetch time. -/
def fetchRefs (refs : List (String × Nat)) : List (String × Nat) → List (String × Nat)
  | [] => refs
  | (b, tip) :: rest => fetchRefs (setA refs ("refs/remotes/origin/" ++ b) tip) rest

/-- Outcome classification of libgit2 `git_merge_analysis` for a single fetched
head, as consumed by src/pull.rs: `upToDate` when the fetched commit is already
contained in HEAD, `fastForward` when HEAD's commit is an ancestor of the
fetched commit (and not up to date), otherwise `normal` (diverged).  This is
the `{up-to-date | fast-forward | diverged}` classification of the spec's
backend capability interface. -/
inductive MergeAnalysis
  | upToDate
  | fastForward
  | normal
deriving DecidableEq

/-- Merge analysis computed from the ancestry oracle `isAnc`
(`isAnc a b` = commit `a` is contained in commit `b`). -/
def mergeAnalysis (isAnc : Nat → Nat → Bool) (localOid remoteOid : Nat) : MergeAnalysis :=
  if isAnc remoteOid localOid then MergeAnalysis.upToDate
  else if isAnc localOid remoteOid then MergeAnalysis.fastForward
  else MergeAnalysis.normal

/-- The `GitError` variants `GitPuller::pull` can produce in the modelled runs
(src/error.rs); `OpenFailed` is not representable because the model receives an
already-opened repository state. -/
inductive PullError
  | pullFailed
  | invalidBranch
  | mergeRequired
deriving DecidableEq

/-- Shallow embedding of `GitPuller::pull` (src/pull.rs).  Step for step:
read HEAD (`PullFailed` when `head()` errors), take its `shorthand()`
(`InvalidBranch` when that is `none`), find the remote `origin` (`PullFailed`
when absent), fetch all configured refspecs (updating the remote-tracking
references from `remoteBranches`), look up `refs/remotes/origin/<branch>`
(`PullFailed` when absent), run merge analysis of the fetched commit against
HEAD, then: fast-forward → set `refs/heads/<branch>` to the fetched commit,
set HEAD to that reference name and force-checkout HEAD; up-to-date → do
nothing; otherwise → `MergeRequired`.  The credential callbacks only affect
the network transport, whose outcome is abstracted by `remoteBranches`.
Returns the result together with the repository state after the call. -/
def pull (isAnc : Nat → Nat → Bool) (remoteBranches : List (String × Nat))
    (repo : Repo) : Except PullError Unit × Repo :=
  match repoHeadRef repo with
  | Except.error _ => (Except.error PullError.pullFailed, repo)
  | Except.ok headName =>
    match shorthandOpt headName with
    | none => (Except.error PullError.invalidBranch, repo)
    | some branch_name =>
      if repo.hasOrigin then
        let repo1 : Repo := { repo with refs := fetchRefs repo.refs remoteBranches }
        match lookupA repo1.refs ("refs/remotes/origin/" ++ branch_name) with
        | none => (Except.error PullError.pullFailed, repo1)
        | some remoteOid =>
          match headOid repo1 with
          | none => (Except.error PullError.pullFailed, repo1)
          | some localOid =>
            match mergeAnalysis isAnc localOid remoteOid with
            | MergeAnalysis.fastForward =>
              match lookupA repo1.refs ("refs/heads/" ++ branch_name) with
              | none => (Except.error PullError.pullFailed, repo1)
              | some _ =>
                (Except.ok (),
                  { repo1 with
                    refs := setA repo1.refs ("refs/heads/" ++ branch_name) remoteOid,
                    head := HeadState.symbolic ("refs/heads/" ++ branch_name),
                    workdir := remoteOid })
            | MergeAnalysis.upToDate => (Except.ok (), repo1)
            | MergeAnalysis.normal => (Except.error PullError.mergeRequired, repo1)
      else (Except.error PullError.pullFailed, repo)

/-- The error `GitCheckout::checkout_branch` produces: every failure is wrapped
into `GitError::CheckoutFailed` carrying the branch name and a message
(src/checkout.rs); the repository path is dropped by the model. -/
inductive CheckoutError
  | checkoutFailed (branch : String) (message : String)
deriving DecidableEq

/-- Shallow embedding of `GitCheckout::checkout_branch` (src/checkout.rs).
Resolution: if `refs/heads/<name>` exists use it unchanged; otherwise, if
`refs/remotes/origin/<name>` exists, peel it to its commit and create the local
branch `refs/heads/<name>` at that commit (`repo.branch(name, commit, false)`),
then use the new reference; otherwise fail with the branch-not-found error.
Then `set_head` to the resolved reference's fully-qualified name and
force-checkout HEAD, which makes the working tree match the commit HEAD
resolves to.  Returns the result together with the repository state after the
call. -/
def checkout_branch (repo : Repo) (branch_name : String) :
    Except CheckoutError Unit × Repo :=
  match lookupA repo.refs ("refs/heads/" ++ branch_name) with
  | some oid =>
    (Except.ok (),
      { repo with
        head := HeadState.symbolic ("refs/heads/" ++ branch_name),
        workdir := oid })
  | none =>
    match lookupA repo.refs ("refs/remotes/origin/" ++ branch_name) with
    | some remoteOid =>
      (Except.ok (),
        { repo with
          refs := setA repo.refs ("refs/heads/" ++ branch_name) remoteOid,
          head := HeadState.symbolic ("refs/heads/" ++ branch_name),
          workdir := remoteOid })
    | none =>
      (Except.error
        (CheckoutError.checkoutFailed branch_name
          ("Branch " ++ branch_name ++ " not found locally or remotely")),
        repo)

/-- A credential value as produced by the `git2::Cred` constructors the source
uses. -/
inductive Cred
  | sshKeyFromAgent (username : String)
  | sshKey (username : String) (publickey : Option String) (privatekey : String)
  | userpassPlaintext (username password : String)
  | defaultCred
deriving DecidableEq

/-- The flags of `git2::CredentialType` queried by the source
(`SSH_KEY`, `USER_PASS_PLAINTEXT`, `DEFAULT`); `allowed_types.contains(f)`
becomes the corresponding field. -/
structure CredentialType where
  ssh_key : Bool
  user_pass_plaintext : Bool
  default_cred : Bool
deriving DecidableEq

/-- One call of the callback into the backend's credential machinery:
`Cred::ssh_key_from_agent`, `Cred::ssh_key` (with the public-key argument the
source passed), or `Cred::default`.  The list of attempts a callback run makes
is its observable interaction with the backend. -/
inductive Attempt
  | agent (username : String)
  | key (username : String) (publickey : Option String) (privatekey : String)
  | tryDefault
deriving DecidableEq

/-- The `SshConfig` struct of src/git/ssh.rs. -/
structure SshConfig where
  private_key_paths : List String
  known_hosts_path : String
  ssh_agent : Bool
deriving DecidableEq

/-- Split a character list into the groups separated by `sep` (models the
component structure used by Rust `Path` operations). -/
def splitOnChar (sep : Char) : List Char → List (List Char)
  | [] => [[]]
  | c :: cs =>
    let r := splitOnChar sep cs
    if c = sep then [] :: r
    else
      match r with
      | [] => [[c]]
      | g :: gs => (c :: g) :: gs

/-- Join character-list groups with the separator `sep` between them. -/
def joinWithChar (sep : Char) : List (List Char) → List Char
  | [] => []
  | [g] => g
  | g :: gs => g ++ sep :: joinWithChar sep gs

/-- Replace the extension of a file name with `pub`, following Rust
`Path::with_extension`: a file name has an extension when it contains a dot
after its first character; the extension (the part after the last dot) is
dropped before `.pub` is appended, and a file name without an extension just
gets `.pub` appended. -/
def setExtPub (file : List Char) : List Char :=
  match splitOnChar '.' file with
  | [] => file ++ ".pub".data
  | [_] => file ++ ".pub".data
  | [s, _] => if s = [] then file ++ ".pub".data else s ++ ".pub".data
  | gs => joinWithChar '.' gs.dropLast ++ ".pub".data

/-- Models `private_key_path.with_extension("pub")`: `setExtPub` applied to the
last path component. -/
def withExtensionPub (p : String) : String :=
  let gs := splitOnChar '/' p.data
  match gs.reverse with
  | [] => String.mk (setExtPub p.data)
  | f :: rest => String.mk (joinWithChar '/' (rest.reverse ++ [setExtPub f]))

/-- The backend call the source makes for one existing private key: when the
`pub` sibling exists on disk pass both paths to `Cred::ssh_key`, otherwise pass
the private key alone; `kr` is the oracle for whether the backend's credential
machinery accepts the key (`if let Ok(cred) = Cred::ssh_key(...)`). -/
def keyCredAt (fs : String → Bool) (kr : String → Option String → String → Option Cred)
    (u p : String) : Option Cred :=
  if fs (withExtensionPub p) then kr u (some (withExtensionPub p)) p
  else kr u none p

/-- The `Attempt` recorded for one existing private key (which public-key
argument was passed depends on whether the `pub` sibling exists). -/
def keyAttempt (u : String) (fs : String → Bool) (p : String) : Attempt :=
  Attempt.key u (if fs (withExtensionPub p) then some (withExtensionPub p) else none) p

/-- The `for private_key_path in &ssh_config.private_key_paths` loop of
src/git/ssh.rs: skip paths that do not exist, try each existing key, return the
first accepted credential, recording every backend call made. -/
def tryKeys (fs : String → Bool) (kr : String → Option String → String → Option Cred)
    (u : String) : List String → Option Cred × List Attempt
  | [] => (none, [])
  | p :: rest =>
    if fs p then
      match keyCredAt fs kr u p with
      | some c => (some c, [keyAttempt u fs p])
      | none =>
        let pr := tryKeys fs kr u rest
        (pr.1, keyAttempt u fs p :: pr.2)
    else tryKeys fs kr u rest

/-- Shallow embedding of the closure returned by
`SshConfig::credentials_callback` (src/git/ssh.rs).  In order: if the agent is
enabled and `SSH_KEY` is allowed, ask the agent under the URL's username
(default `git`), returning its credential on success; if `SSH_KEY` is allowed,
iterate the configured private-key paths; if `DEFAULT` is allowed, request the
default credential; otherwise fail with the source's error message.  The `url`
argument is bound as `_url` in the source and never used.  Oracles: `fs` for
file existence, `agentResult` for `Cred::ssh_key_from_agent`, `kr` for
`Cred::ssh_key`, `defaultResult` for `Cred::default`.  Returns the result and
the list of backend credential calls made. -/
def credentials_callback (cfg : SshConfig) (fs : String → Bool)
    (agentResult : String → Option Cred)
    (kr : String → Option String → String → Option Cred)
    (defaultResult : Option Cred)
    (_url : String) (username_from_url : Option String) (allowed : CredentialType) :
    Except String Cred × List Attempt :=
  let username := username_from_url.getD "git"
  let agentStep : Option Cred × List Attempt :=
    if cfg.ssh_agent && allowed.ssh_key then
      (agentResult username, [Attempt.agent username])
    else (none, [])
  match agentStep with
  | (some c, t) => (Except.ok c, t)
  | (none, t1) =>
    let keyStep : Option Cred × List Attempt :=
      if allowed.ssh_key then tryKeys fs kr username cfg.private_key_paths
      else (none, [])
    match keyStep with
    | (some c, t2) => (Except.ok c, t1 ++ t2)
    | (none, t2) =>
      if allowed.default_cred then
        match defaultResult with
        | some c => (Except.ok c, t1 ++ t2 ++ [Attempt.tryDefault])
        | none => (Except.error "No valid credentials found", t1 ++ t2 ++ [Attempt.tryDefault])
      else (Except.error "No valid credentials found", t1 ++ t2)

/-- A git configuration as read by `git2::Config`: its key-value entries. -/
structure GitConfig where
  entries : List (String × String)
deriving DecidableEq

/-- Models `Config::get_string(key)` (restricted to presence): `some` when the
key is set. -/
def configGetString (config : GitConfig) (key : String) : Option String :=
  lookupA config.entries key

/-- Models `Config::entries(Some(glob)).is_ok()`.  In git2, `entries` merely
constructs a glob iterator (`git_config_iterator_glob_new`); construction
succeeds for a well-formed glob whether or not any entry matches it, so for the
fixed glob the source passes the call returns `Ok` in every run, and this
model is constantly `true`. -/
def configEntriesOk (_config : GitConfig) (_glob : String) : Bool :=
  true

/-- The advisory diagnostic `get_git_config_with_credential_helpers` prints
when it believes no credential helper is configured (the `eprintln!` block of
src/pull.rs, summarised to its first line). -/
def credentialHelperWarning : String :=
  "Warning: No git credential helpers configured. Consider setting up a credential helper for better authentication:"

/-- Shallow embedding of `GitPuller::get_git_config_with_credential_helpers`
(src/pull.rs): open the default configuration (falling back to an empty one,
so opening never fails), compute
`get_string("credential.helper").is_ok() || entries(glob).is_ok()`, emit the
warning when that is false, and return the configuration.  The second
component is the list of warnings emitted to diagnostics. -/
def get_git_config_with_credential_helpers (config : GitConfig) :
    Except String GitConfig × List String :=
  let has_credential_helper :=
    (configGetString config "credential.helper").isSome ||
      configEntriesOk config "credential\\..*\\.helper"
  if has_credential_helper then (Except.ok config, [])
  else (Except.ok config, [credentialHelperWarning])

/-- Shallow embedding of the closure returned by
`GitPuller::https_credentials_callback` (src/pull.rs).  In order: if
`USER_PASS_PLAINTEXT` is allowed, read the configuration and query the
credential helper (`helper` oracle models `Cred::credential_helper`),
returning its credential on success; if `USER_PASS_PLAINTEXT` is allowed,
consult the environment variables `GITHUB_TOKEN`, `GH_TOKEN`,
`GITHUB_ACCESS_TOKEN` in that order, building a user/password credential from
the first one set (username from the URL or `git`, the token as password;
`Cred::userpass_plaintext` construction always succeeds); if `DEFAULT` is
allowed, request the default credential; otherwise fail with the source's
error message. -/
def https_credentials_callback (config : GitConfig)
    (helper : GitConfig → String → Option String → Option Cred)
    (env : String → Option String) (defaultResult : Option Cred)
    (url : String) (username_from_url : Option String) (allowed : CredentialType) :
    Except String Cred :=
  let step1 : Option Cred :=
    if allowed.user_pass_plaintext then
      match (get_git_config_with_credential_helpers config).1 with
      | Except.ok cfg => helper cfg url username_from_url
      | Except.error _ => none
    else none
  match step1 with
  | some c => Except.ok c
  | none =>
    let step2 : Option Cred :=
      if allowed.user_pass_plaintext then
        match env "GITHUB_TOKEN" with
        | some token => some (Cred.userpassPlaintext (username_from_url.getD "git") token)
        | none =>
          match env "GH_TOKEN" with
          | some token => some (Cred.userpassPlaintext (username_from_url.getD "git") token)
          | none =>
            match env "GITHUB_ACCESS_TOKEN" with
            | some token => some (Cred.userpassPlaintext (username_from_url.getD "git") token)
            | none => none
      else none
    match step2 with
    | some c => Except.ok c
    | none =>
      if allowed.default_cred then
        match defaultResult with
        | some c => Except.ok c
        | none => Except.error "No HTTPS credentials found. Configure git credential helper or set GITHUB_TOKEN environment variable for private repositories."
      else Except.error "No HTTPS credentials found. Configure git credential helper or set GITHUB_TOKEN environment variable for private repositories."

/-- Concrete repository whose local `main` (commit 1) is strictly behind its
fetched remote-tracking counterpart (commit 2). -/
def repoBehind : Repo :=
  { refs := [("refs/heads/main", 1), ("refs/remotes/origin/main", 2)],
    head := HeadState.symbolic "refs/heads/main",
    workdir := 1,
    hasOrigin := true }

/-- Concrete repository whose local `main` already matches the fetched remote
tip (commit 2). -/
def repoCurrent : Repo :=
  { refs := [("refs/heads/main", 2), ("refs/remotes/origin/main", 2)],
    head := HeadState.symbolic "refs/heads/main",
    workdir := 2,
    hasOrigin := true }

/-- Ancestry oracle of a linear history in which commit ids increase along the
history: `a` is contained in `b` iff `a ≤ b`. -/
def ancLinear (a b : Nat) : Bool :=
  Nat.ble a b

/-- Ancestry oracle of two unrelated histories: no commit contains another
(used to realise a diverged local/remote pair). -/
def ancDisjoint (_a _b : Nat) : Bool :=
  false

/-- Concrete repository with a detached HEAD at commit 7 and no
`refs/remotes/origin/HEAD` reference. -/
def repoDetached : Repo :=
  { refs := [("refs/heads/main", 5), ("refs/remotes/origin/main", 5)],
    head := HeadState.detached 7,
    workdir := 7,
    hasOrigin := true }

/-- Concrete repository that has the local branch `main` (commit 3) and is
currently on a detached HEAD. -/
def repoWithLocal : Repo :=
  { refs := [("refs/heads/main", 3)],
    head := HeadState.detached 9,
    workdir := 9,
    hasOrigin := true }

/-- Concrete repository where `feature` exists only as a remote-tracking
reference (commit 4). -/
def repoRemoteOnly : Repo :=
  { refs := [("refs/remotes/origin/feature", 4)],
    head := HeadState.detached 9,
    workdir := 9,
    hasOrigin := true }

/-- Concrete SSH profile with key paths `[/k/a, /k/b]` in that order and the
agent disabled. -/
def sshProfileAB : SshConfig :=
  { private_key_paths := ["/k/a", "/k/b"],
    known_hosts_path := "/k/known_hosts",
    ssh_agent := false }

/-- Filesystem on which only `/k/b` exists. -/
def fsOnlyB (s : String) : Bool :=
  s == "/k/b"

/-- Key-validation oracle that accepts exactly the private key `/k/b`. -/
def krOnlyB (u : String) (pub : Option String) (priv : String) : Option Cred :=
  if priv == "/k/b" then some (Cred.sshKey u pub priv) else none

/-- Mechanism set allowing key-based and default credentials (but not
user/password). -/
def allowedKeyAndDefault : CredentialType :=
  { ssh_key := true, user_pass_plaintext := false, default_cred := true }

/-- Mechanism set allowing key-based credentials only. -/
def allowedKeyOnly : CredentialType :=
  { ssh_key := true, user_pass_plaintext := false, default_cred := false }

/-- Mechanism set allowing user/password credentials only. -/
def allowedUserPassOnly : CredentialType :=
  { ssh_key := false, user_pass_plaintext := true, default_cred := false }

/-- A git configuration with no entries at all (in particular no credential
helper configured). -/
def emptyGitConfig : GitConfig :=
  { entries := [] }

/-- Credential-helper oracle that yields no stored credential. -/
def helperNone (_config : GitConfig) (_url : String) (_username : Option String) : Option Cred :=
  none

/-- Environment in which both `GITHUB_TOKEN` and `GH_TOKEN` are set, to
distinct tokens. -/
def envBothTokens (k : String) : Option String :=
  if k == "GITHUB_TOKEN" then some "tokA"
  else if k == "GH_TOKEN" then some "tokB"
  else none

theorem lookupA_setA_self {α : Type} (l : List (String × α)) (n : String) (v : α) :
    lookupA (setA l n v) n = some v := by
  induction l with
  | nil => simp [setA, lookupA]
  | cons kv rest ih =>
    obtain ⟨k, w⟩ := kv
    by_cases h : k = n
    · simp [setA, lookupA, h]
    · simp [setA, lookupA, h, ih]

theorem setA_eq_of_lookupA {α : Type} (l : List (String × α)) (n : String) (v : α)
    (h : lookupA l n = some v) : setA l n v = l := by
  induction l with
  | nil => simp [lookupA] at h
  | cons kv rest ih =>
    obtain ⟨k, w⟩ := kv
    by_cases hk : k = n
    · simp [lookupA, hk] at h
      simp [setA, hk, h]
    · simp [lookupA, hk] at h
      simp [setA, hk, ih h]

theorem setA_eq_append_of_none {α : Type} (l : List (String × α)) (n : String) (v : α)
    (h : lookupA l n = none) : setA l n v = l ++ [(n, v)] := by
  induction l with
  | nil => simp [setA]
  | cons kv rest ih =>
    obtain ⟨k, w⟩ := kv
    by_cases hk : k = n
    · simp [lookupA, hk] at h
    · simp [lookupA, hk] at h
      simp [setA, hk, ih h]

theorem stripLead_append (p s : List Char) : stripLead p (p ++ s) = some s := by
  induction p with
  | nil => simp [stripLead]
  | cons a as ih => simp [stripLead, ih]

theorem shorthand_heads (b : String) : shorthand ("refs/heads/" ++ b) = b := by
  simp only [shorthand, String.data_append, stripLead_append]

theorem pull_eval (isAnc : Nat → Nat → Bool) (b : String) (l r : Nat) (repo : Repo)
    (h1 : repo.head = HeadState.symbolic ("refs/heads/" ++ b))
    (h2 : lookupA repo.refs ("refs/heads/" ++ b) = some l)
    (h3 : lookupA repo.refs ("refs/remotes/origin/" ++ b) = some r)
    (h4 : repo.hasOrigin = true) :
    pull isAnc [(b, r)] repo =
      (match mergeAnalysis isAnc l r with
       | MergeAnalysis.fastForward =>
         (Except.ok (),
           { repo with
             refs := setA repo.refs ("refs/heads/" ++ b) r,
             head := HeadState.symbolic ("refs/heads/" ++ b),
             workdir := r })
       | MergeAnalysis.upToDate => (Except.ok (), repo)
       | MergeAnalysis.normal => (Except.error PullError.mergeRequired, repo)) := by
  obtain ⟨refs, hed, wd, org⟩ := repo
  simp only at h1 h2 h3 h4
  subst h1
  subst h4
  cases hma : mergeAnalysis isAnc l r with
  | fastForward =>
    simp [pull, repoHeadRef, h2, h3, shorthandOpt, shorthand_heads, headOid,
      fetchRefs, setA_eq_of_lookupA _ _ _ h3, hma]
  | upToDate =>
    simp [pull, repoHeadRef, h2, h3, shorthandOpt, shorthand_heads, headOid,
      fetchRefs, setA_eq_of_lookupA _ _ _ h3, hma]
  | normal =>
    simp [pull, repoHeadRef, h2, h3, shorthandOpt, shorthand_heads, headOid,
      fetchRefs, setA_eq_of_lookupA _ _ _ h3, hma]

/-- C1: for a repository on the named branch `b` with a fetched remote-tracking
counterpart at `r` (so the fetch leaves the reference store unchanged): if the
local tip `l` is strictly behind the remote tip (`l` is contained in `r`, `r`
not in `l`), `pull` moves `refs/heads/b` to `r` and leaves the working tree at
`r`; if the tips are up-to-date (`r` contained in `l`), `pull` succeeds and
mutates nothing; if the tips have diverged (neither contained in the other),
`pull` returns `MergeRequired` and mutates nothing. -/
theorem pull_behind_current_diverged (isAnc : Nat → Nat → Bool) (b : String)
    (l r : Nat) (repo : Repo)
    (h1 : repo.head = HeadState.symbolic ("refs/heads/" ++ b))
    (h2 : lookupA repo.refs ("refs/heads/" ++ b) = some l)
    (h3 : lookupA repo.refs ("refs/remotes/origin/" ++ b) = some r)
    (h4 : repo.hasOrigin = true) :
    (isAnc l r = true → isAnc r l = false →
      pull isAnc [(b, r)] repo =
        (Except.ok (),
          { repo with
            refs := setA repo.refs ("refs/heads/" ++ b) r,
            head := HeadState.symbolic ("refs/heads/" ++ b),
            workdir := r })) ∧
    (isAnc r l = true →
      pull isAnc [(b, r)] repo = (Except.ok (), repo)) ∧
    (isAnc l r = false → isAnc r l = false →
      pull isAnc [(b, r)] repo = (Except.error PullError.mergeRequired, repo)) := by
  refine ⟨fun hb hnb => ?_, fun hu => ?_, fun hd hnd => ?_⟩
  · rw [pull_eval isAnc b l r repo h1 h2 h3 h4]
    simp [mergeAnalysis, hb, hnb]
  · rw [pull_eval isAnc b l r repo h1 h2 h3 h4]
    simp [mergeAnalysis, hu]
  · rw [pull_eval isAnc b l r repo h1 h2 h3 h4]
    simp [mergeAnalysis, hd, hnd]

/-- Witness for C1: all three outcomes realised on concrete repositories
(`repoBehind` with a linear history fast-forwards from commit 1 to commit 2,
`repoCurrent` is a no-op, `repoBehind` with disjoint histories reports
`MergeRequired` and is unchanged). -/
theorem pull_behind_current_diverged_witness :
    pull ancLinear [("main", 2)] repoBehind =
      (Except.ok (),
        { repoBehind with
          refs := setA repoBehind.refs ("refs/heads/" ++ "main") 2,
          head := HeadState.symbolic ("refs/heads/" ++ "main"),
          workdir := 2 }) ∧
    pull ancLinear [("main", 2)] repoCurrent = (Except.ok (), repoCurrent) ∧
    pull ancDisjoint [("main", 2)] repoBehind =
      (Except.error PullError.mergeRequired, repoBehind) := by
  refine ⟨?_, ?_, ?_⟩
  · exact (pull_behind_current_diverged ancLinear "main" 1 2 repoBehind rfl rfl rfl rfl).1
      rfl rfl
  · exact (pull_behind_current_diverged ancLinear "main" 2 2 repoCurrent rfl rfl rfl rfl).2.1
      rfl
  · exact (pull_behind_current_diverged ancDisjoint "main" 1 2 repoBehind rfl rfl rfl rfl).2.2
      rfl rfl

/-- C9: when `pull` reaches the up-to-date outcome (the fetched remote tip `r`
is already contained in the local tip `l`) and the remote is unchanged, a
second `pull` performs no further mutation: both calls return success with the
repository state exactly as it was. -/
theorem pull_idempotent_when_up_to_date (isAnc : Nat → Nat → Bool) (b : String)
    (l r : Nat) (repo : Repo)
    (h1 : repo.head = HeadState.symbolic ("refs/heads/" ++ b))
    (h2 : lookupA repo.refs ("refs/heads/" ++ b) = some l)
    (h3 : lookupA repo.refs ("refs/remotes/origin/" ++ b) = some r)
    (h4 : repo.hasOrigin = true)
    (hu : isAnc r l = true) :
    pull isAnc [(b, r)] repo = (Except.ok (), repo) ∧
    pull isAnc [(b, r)] (pull isAnc [(b, r)] repo).2 = (Except.ok (), repo) := by
  have hfix : pull isAnc [(b, r)] repo = (Except.ok (), repo) := by
    rw [pull_eval isAnc b l r repo h1 h2 h3 h4]
    simp [mergeAnalysis, hu]
  refine ⟨hfix, ?_⟩
  rw [hfix]
  exact hfix

/-- Witness for C9: on `repoCurrent` the first `pull` is a success that changes
nothing and the second `pull` returns the same unchanged state. -/
theorem pull_idempotent_when_up_to_date_witness :
    pull ancLinear [("main", 2)] repoCurrent = (Except.ok (), repoCurrent) ∧
    pull ancLinear [("main", 2)] (pull ancLinear [("main", 2)] repoCurrent).2 =
      (Except.ok (), repoCurrent) :=
  pull_idempotent_when_up_to_date ancLinear "main" 2 2 repoCurrent rfl rfl rfl rfl rfl

/-- C2: whenever `checkout_branch` returns success, the local reference
`refs/heads/<branch_name>` exists, HEAD is attached to exactly that
fully-qualified reference name, and the working tree matches the commit that
reference (and hence HEAD) resolves to. -/
theorem checkout_success_head_attached (repo : Repo) (branch_name : String)
    (h : (checkout_branch repo branch_name).1 = Except.ok ()) :
    ∃ oid,
      lookupA (checkout_branch repo branch_name).2.refs ("refs/heads/" ++ branch_name) =
        some oid ∧
      (checkout_branch repo branch_name).2.head =
        HeadState.symbolic ("refs/heads/" ++ branch_name) ∧
      (checkout_branch repo branch_name).2.workdir = oid := by
  cases hl : lookupA repo.refs ("refs/heads/" ++ branch_name) with
  | some oid =>
    refine ⟨oid, ?_, ?_, ?_⟩ <;> simp [checkout_branch, hl]
  | none =>
    cases hr : lookupA repo.refs ("refs/remotes/origin/" ++ branch_name) with
    | some roid =>
      refine ⟨roid, ?_, ?_, ?_⟩ <;> simp [checkout_branch, hl, hr, lookupA_setA_self]
    | none =>
      simp [checkout_branch, hl, hr] at h

/-- Witness for C2: checking out the existing local branch `main` of
`repoWithLocal` succeeds, and afterwards the reference exists, HEAD is
attached to it and the working tree matches it. -/
theorem checkout_success_head_attached_witness :
    ∃ oid,
      lookupA (checkout_branch repoWithLocal "main").2.refs ("refs/heads/" ++ "main") =
        some oid ∧
      (checkout_branch repoWithLocal "main").2.head =
        HeadState.symbolic ("refs/heads/" ++ "main") ∧
      (checkout_branch repoWithLocal "main").2.workdir = oid :=
  checkout_success_head_attached repoWithLocal "main" rfl

/-- C3: `checkout_branch` resolves in order: an existing local reference
`refs/heads/<name>` is used unchanged (no reference is written); otherwise an
existing remote-tracking reference `refs/remotes/origin/<name>` causes exactly
one new local reference to be appended, pointing at the same commit, and that
reference is used; otherwise the call fails with the branch-not-found error and
the repository state is unchanged. -/
theorem checkout_resolution_order (repo : Repo) (branch_name : String) :
    (∀ oid, lookupA repo.refs ("refs/heads/" ++ branch_name) = some oid →
      checkout_branch repo branch_name =
        (Except.ok (),
          { repo with
            head := HeadState.symbolic ("refs/heads/" ++ branch_name),
            workdir := oid })) ∧
    (lookupA repo.refs ("refs/heads/" ++ branch_name) = none →
      ∀ roid, lookupA repo.refs ("refs/remotes/origin/" ++ branch_name) = some roid →
      checkout_branch repo branch_name =
        (Except.ok (),
          { repo with
            refs := repo.refs ++ [("refs/heads/" ++ branch_name, roid)],
            head := HeadState.symbolic ("refs/heads/" ++ branch_name),
            workdir := roid })) ∧
    (lookupA repo.refs ("refs/heads/" ++ branch_name) = none →
      lookupA repo.refs ("refs/remotes/origin/" ++ branch_name) = none →
      checkout_branch repo branch_name =
        (Except.error
          (CheckoutError.checkoutFailed branch_name
            ("Branch " ++ branch_name ++ " not found locally or remotely")),
          repo)) := by
  refine ⟨fun oid hl => ?_, fun hl roid hr => ?_, fun hl hr => ?_⟩
  · simp [checkout_branch, hl]
  · simp [checkout_branch, hl, hr, setA_eq_append_of_none _ _ _ hl]
  · simp [checkout_branch, hl, hr]

/-- Witness for C3: all three resolution outcomes realised on concrete
repositories (existing local branch used with no reference written,
remote-only branch materialised as exactly one appended local reference at the
same commit, and an absent branch failing with not-found and no mutation). -/
theorem checkout_resolution_order_witness :
    checkout_branch repoWithLocal "main" =
      (Except.ok (),
        { repoWithLocal with
          head := HeadState.symbolic ("refs/heads/" ++ "main"),
          workdir := 3 }) ∧
    checkout_branch repoRemoteOnly "feature" =
      (Except.ok (),
        { repoRemoteOnly with
          refs := repoRemoteOnly.refs ++ [("refs/heads/" ++ "feature", 4)],
          head := HeadState.symbolic ("refs/heads/" ++ "feature"),
          workdir := 4 }) ∧
    checkout_branch repoRemoteOnly "main" =
      (Except.error
        (CheckoutError.checkoutFailed "main"
          ("Branch " ++ "main" ++ " not found locally or remotely")),
        repoRemoteOnly) := by
  refine ⟨?_, ?_, ?_⟩
  · exact (checkout_resolution_order repoWithLocal "main").1 3 rfl
  · exact (checkout_resolution_order repoRemoteOnly "feature").2.1 rfl 4 rfl
  · exact (checkout_resolution_order repoRemoteOnly "main").2.2 rfl rfl

theorem tryKeys_found (fs : String → Bool) (kr : String → Option String → String → Option Cred)
    (u : String) (pre post : List String) (p : String) (c : Cred)
    (hpre : ∀ q ∈ pre, fs q = false ∨ keyCredAt fs kr u q = none)
    (hp : fs p = true) (hc : keyCredAt fs kr u p = some c) :
    tryKeys fs kr u (pre ++ p :: post) =
      (some c, (pre.filter fs).map (keyAttempt u fs) ++ [keyAttempt u fs p]) := by
  induction pre with
  | nil => simp [tryKeys, hp, hc]
  | cons q qs ih =>
    have hrest : ∀ x ∈ qs, fs x = false ∨ keyCredAt fs kr u x = none :=
      fun x hx => hpre x (List.mem_cons_of_mem q hx)
    rcases hpre q (List.mem_cons_self q qs) with hq | hq
    · simp [tryKeys, hq, List.filter_cons, ih hrest]
    · cases hfq : fs q with
      | false => simp [tryKeys, hfq, List.filter_cons, ih hrest]
      | true => simp [tryKeys, hfq, hq, List.filter_cons, ih hrest]

theorem tryKeys_all_absent (fs : String → Bool)
    (kr : String → Option String → String → Option Cred) (u : String)
    (ps : List String) (h : ∀ p ∈ ps, fs p = false) :
    tryKeys fs kr u ps = (none, []) := by
  induction ps with
  | nil => simp [tryKeys]
  | cons p rest ih =>
    simp [tryKeys, h p (List.mem_cons_self p rest),
      ih (fun x hx => h x (List.mem_cons_of_mem p hx))]

/-- C4: with key-based auth allowed and the agent yielding no credential, the
SSH callback attempts the profile's private-key paths in insertion order,
skipping the paths that do not exist on disk; when `p` is the first path that
both exists and is validated usable by the backend (every earlier path is
nonexistent or rejected), the callback returns `p`'s credential, the backend
calls made are exactly the existing earlier keys in order followed by `p`, and
neither later keys nor default credentials are ever attempted. -/
theorem ssh_key_order_first_usable_wins (cfg : SshConfig) (fs : String → Bool)
    (agentResult : String → Option Cred)
    (kr : String → Option String → String → Option Cred)
    (defaultResult : Option Cred) (url : String) (username_from_url : Option String)
    (allowed : CredentialType) (pre post : List String) (p : String) (c : Cred)
    (hsplit : cfg.private_key_paths = pre ++ p :: post)
    (hSsh : allowed.ssh_key = true)
    (hAgent : agentResult (username_from_url.getD "git") = none)
    (hpre : ∀ q ∈ pre, fs q = false ∨ keyCredAt fs kr (username_from_url.getD "git") q = none)
    (hp : fs p = true)
    (hc : keyCredAt fs kr (username_from_url.getD "git") p = some c) :
    credentials_callback cfg fs agentResult kr defaultResult url username_from_url allowed =
      (Except.ok c,
        (if cfg.ssh_agent then [Attempt.agent (username_from_url.getD "git")] else []) ++
          ((pre.filter fs).map (keyAttempt (username_from_url.getD "git") fs) ++
            [keyAttempt (username_from_url.getD "git") fs p])) ∧
    Attempt.tryDefault ∉
      (credentials_callback cfg fs agentResult kr defaultResult url username_from_url allowed).2 := by
  have hkeys := tryKeys_found fs kr (username_from_url.getD "git") pre post p c hpre hp hc
  have hmain :
      credentials_callback cfg fs agentResult kr defaultResult url username_from_url allowed =
        (Except.ok c,
          (if cfg.ssh_agent then [Attempt.agent (username_from_url.getD "git")] else []) ++
            ((pre.filter fs).map (keyAttempt (username_from_url.getD "git") fs) ++
              [keyAttempt (username_from_url.getD "git") fs p])) := by
    cases hA : cfg.ssh_agent with
    | false => simp [credentials_callback, hA, hSsh, hsplit, hkeys]
    | true => simp [credentials_callback, hA, hSsh, hAgent, hsplit, hkeys]
  refine ⟨hmain, ?_⟩
  rw [hmain]
  cases cfg.ssh_agent <;> simp [keyAttempt]

/-- Witness for C4: profile `[/k/a, /k/b]` with agent disabled on a filesystem
where only `/k/b` exists; the callback succeeds via `/k/b` with a single
backend key call and never attempts default credentials, even though they are
allowed and would be available. -/
theorem ssh_key_order_first_usable_wins_witness :
    credentials_callback sshProfileAB fsOnlyB (fun _ => none) krOnlyB
        (some Cred.defaultCred) "ssh://example" none allowedKeyAndDefault =
      (Except.ok (Cred.sshKey "git" none "/k/b"), [Attempt.key "git" none "/k/b"]) ∧
    Attempt.tryDefault ∉
      (credentials_callback sshProfileAB fsOnlyB (fun _ => none) krOnlyB
        (some Cred.defaultCred) "ssh://example" none allowedKeyAndDefault).2 :=
  ssh_key_order_first_usable_wins sshProfileAB fsOnlyB (fun _ => none) krOnlyB
    (some Cred.defaultCred) "ssh://example" none allowedKeyAndDefault
    ["/k/a"] [] "/k/b" (Cred.sshKey "git" none "/k/b")
    rfl rfl rfl (by decide) (by decide) (by decide)

/-- C5: with the agent disabled, no configured key path existing on disk and
default credentials not in the allowed mechanism set, the SSH callback fails
with the no-credentials error having made no backend credential call at all —
in particular default credentials are never attempted. -/
theorem ssh_no_keys_no_default (cfg : SshConfig) (fs : String → Bool)
    (agentResult : String → Option Cred)
    (kr : String → Option String → String → Option Cred)
    (defaultResult : Option Cred) (url : String) (username_from_url : Option String)
    (allowed : CredentialType)
    (hAgent : cfg.ssh_agent = false)
    (hKeys : ∀ p ∈ cfg.private_key_paths, fs p = false)
    (hDef : allowed.default_cred = false) :
    credentials_callback cfg fs agentResult kr defaultResult url username_from_url allowed =
      (Except.error "No valid credentials found", []) ∧
    Attempt.tryDefault ∉
      (credentials_callback cfg fs agentResult kr defaultResult url username_from_url allowed).2 := by
  have hk := tryKeys_all_absent fs kr (username_from_url.getD "git") cfg.private_key_paths hKeys
  have hmain :
      credentials_callback cfg fs agentResult kr defaultResult url username_from_url allowed =
        (Except.error "No valid credentials found", []) := by
    cases hS : allowed.ssh_key <;>
      simp [credentials_callback, hAgent, hDef, hk, hS]
  refine ⟨hmain, ?_⟩
  rw [hmain]
  simp

/-- Witness for C5: the `[/k/a, /k/b]` profile with agent disabled on a
filesystem where no file exists and a mechanism set without default
credentials: the callback fails with the no-credentials error and makes no
backend call, although a default credential would have been available. -/
theorem ssh_no_keys_no_default_witness :
    credentials_callback sshProfileAB (fun _ => false) (fun _ => none) krOnlyB
        (some Cred.defaultCred) "ssh://example" none allowedKeyOnly =
      (Except.error "No valid credentials found", []) ∧
    Attempt.tryDefault ∉
      (credentials_callback sshProfileAB (fun _ => false) (fun _ => none) krOnlyB
        (some Cred.defaultCred) "ssh://example" none allowedKeyOnly).2 :=
  ssh_no_keys_no_default sshProfileAB (fun _ => false) (fun _ => none) krOnlyB
    (some Cred.defaultCred) "ssh://example" none allowedKeyOnly
    rfl (fun _ _ => rfl) rfl

/-- C10: the SSH callback never inspects the remote URL: two invocations that
differ only in the URL argument, agreeing on the profile, the
username-from-URL, the allowed mechanism set and the ambient
filesystem/agent/key/default oracles, make the same attempts and return the
same outcome. -/
theorem ssh_callback_url_irrelevant (cfg : SshConfig) (fs : String → Bool)
    (agentResult : String → Option Cred)
    (kr : String → Option String → String → Option Cred)
    (defaultResult : Option Cred) (url1 url2 : String)
    (username_from_url : Option String) (allowed : CredentialType) :
    credentials_callback cfg fs agentResult kr defaultResult url1 username_from_url allowed =
      credentials_callback cfg fs agentResult kr defaultResult url2 username_from_url allowed :=
  rfl

theorem get_git_config_fst (config : GitConfig) :
    (get_git_config_with_credential_helpers config).1 = Except.ok config := by
  cases h :
      (configGetString config "credential.helper").isSome ||
        configEntriesOk config "credential\\..*\\.helper" <;>
    simp [get_git_config_with_credential_helpers, h]

/-- C6: in the HTTPS chain, when user/password auth is allowed and the
credential helper yields no credential, the token environment variables are
consulted in the fixed priority order `GITHUB_TOKEN`, `GH_TOKEN`,
`GITHUB_ACCESS_TOKEN` — the first variable found wins (so `GITHUB_TOKEN` wins
over `GH_TOKEN` whenever it is set) — and the resulting credential is a
user/password credential whose password is the token and whose username is the
URL's username or `git`. -/
theorem https_token_env_priority (config : GitConfig)
    (helper : GitConfig → String → Option String → Option Cred)
    (env : String → Option String) (defaultResult : Option Cred)
    (url : String) (username_from_url : Option String) (allowed : CredentialType)
    (hUP : allowed.user_pass_plaintext = true)
    (hHelper : helper config url username_from_url = none) :
    (∀ t, env "GITHUB_TOKEN" = some t →
      https_credentials_callback config helper env defaultResult url username_from_url allowed =
        Except.ok (Cred.userpassPlaintext (username_from_url.getD "git") t)) ∧
    (∀ t, env "GITHUB_TOKEN" = none → env "GH_TOKEN" = some t →
      https_credentials_callback config helper env defaultResult url username_from_url allowed =
        Except.ok (Cred.userpassPlaintext (username_from_url.getD "git") t)) ∧
    (∀ t, env "GITHUB_TOKEN" = none → env "GH_TOKEN" = none →
      env "GITHUB_ACCESS_TOKEN" = some t →
      https_credentials_callback config helper env defaultResult url username_from_url allowed =
        Except.ok (Cred.userpassPlaintext (username_from_url.getD "git") t)) := by
  refine ⟨fun t h1 => ?_, fun t h0 h1 => ?_, fun t h0 h1 h2 => ?_⟩
  · simp [https_credentials_callback, hUP, get_git_config_fst, hHelper, h1]
  · simp [https_credentials_callback, hUP, get_git_config_fst, hHelper, h0, h1]
  · simp [https_credentials_callback, hUP, get_git_config_fst, hHelper, h0, h1, h2]

/-- Witness for C6: no credential helper yields anything and both
`GITHUB_TOKEN` and `GH_TOKEN` are set; the result is a user/password
credential with username `git` and `GITHUB_TOKEN`'s value as password. -/
theorem https_token_env_priority_witness :
    https_credentials_callback emptyGitConfig helperNone envBothTokens none
        "https://github.com/octo/repo.git" none allowedUserPassOnly =
      Except.ok (Cred.userpassPlaintext "git" "tokA") :=
  (https_token_env_priority emptyGitConfig helperNone envBothTokens none
    "https://github.com/octo/repo.git" none allowedUserPassOnly rfl rfl).1 "tokA" rfl

/-- C7 (divergence witness): on a repository with a detached HEAD, `pull` does
not fail with `InvalidBranch` as the specification requires.  Per libgit2,
`head()` on a detached repository returns a direct reference named `HEAD`
whose `shorthand()` is `some "HEAD"`, not `none`, so the source's
`ok_or(InvalidBranch)` check never fires; the call proceeds with branch name
`HEAD` and (here, with no `refs/remotes/origin/HEAD` reference) fails with
`PullFailed` instead. -/
theorem pull_detached_head_not_invalid_branch :
    pull ancLinear [("main", 5)] repoDetached =
      (Except.error PullError.pullFailed, repoDetached) ∧
    (pull ancLinear [("main", 5)] repoDetached).1 ≠
      Except.error PullError.invalidBranch := by
  have h : pull ancLinear [("main", 5)] repoDetached =
      (Except.error PullError.pullFailed, repoDetached) := by rfl
  refine ⟨h, ?_⟩
  rw [h]
  simp

/-- C8 (divergence witness): on a configuration with no credential helper
configured at all, `get_git_config_with_credential_helpers` returns the
configuration successfully but emits no warning, although the specification
says a warning is emitted to diagnostics: `entries(glob).is_ok()` is true even
with zero matching entries, so `has_credential_helper` is always true and the
warning block is dead code. -/
theorem no_helper_configured_emits_no_warning :
    get_git_config_with_credential_helpers emptyGitConfig =
      (Except.ok emptyGitConfig, []) :=
  rfl
